import Mathlib

/-!
Verification of the Person/Address/Age/Job CRUD service (src/main.py) against
its specification.  The service keeps four in-memory Python dicts; we model a
dict as an insertion-ordered association list with unique keys, and each HTTP
handler as a pure function from the table (plus its request arguments) to a
response together with the table it leaves behind.  Raising an HTTPException
is modelled as returning an error response and the unchanged table.  UUIDs are
modelled as natural numbers, dates as their ISO string form.
-/

namespace SimpleMicroservices

/-- An HTTPException as raised by the handlers: status code and detail. -/
structure HTTPException where
  status_code : Nat
  detail : String
deriving DecidableEq, Repr

/-- UUIDs are modelled as natural numbers. -/
abbrev UUID := Nat

/-- Python str(uuid): the string form of an id. -/
def strOfUUID (u : UUID) : String := toString u

/-! ### Python dict model

A dict is an association list, ordered by insertion, with unique keys.
`dictGet` is `d.get(k)`, `dictContains` is `k in d`, `dictInsert` is
`d[k] = v` (overwrites in place if the key is present, appends otherwise),
`dictPop` is `d.pop(k, None)` paired with the resulting dict, and
`dictValues` is `list(d.values())`. -/

def dictGet {K V : Type} [DecidableEq K] (k : K) : List (K × V) → Option V
  | [] => none
  | (k2, v2) :: rest => if k2 = k then some v2 else dictGet k rest

def dictContains {K V : Type} [DecidableEq K] (k : K) (d : List (K × V)) : Bool :=
  (dictGet k d).isSome

def dictInsert {K V : Type} [DecidableEq K] (k : K) (v : V) :
    List (K × V) → List (K × V)
  | [] => [(k, v)]
  | (k2, v2) :: rest =>
      if k2 = k then (k, v) :: rest else (k2, v2) :: dictInsert k v rest

def dictPop {K V : Type} [DecidableEq K] (k : K) :
    List (K × V) → Option V × List (K × V)
  | [] => (none, [])
  | (k2, v2) :: rest =>
      if k2 = k then (some v2, rest)
      else
        let r := dictPop k rest
        (r.1, (k2, v2) :: r.2)

def dictValues {K V : Type} (d : List (K × V)) : List V := d.map Prod.snd

/-- The keys of a dict are pairwise distinct (true of every Python dict). -/
def dictNodupKeys {K V : Type} (d : List (K × V)) : Prop :=
  (d.map Prod.fst).Nodup

instance {K V : Type} [DecidableEq K] (d : List (K × V)) :
    Decidable (dictNodupKeys d) := by
  unfold dictNodupKeys; infer_instance

theorem dictGet_dictInsert_self {K V : Type} [DecidableEq K]
    (k : K) (v : V) (d : List (K × V)) :
    dictGet k (dictInsert k v d) = some v := by
  induction d with
  | nil => simp [dictInsert, dictGet]
  | cons p rest ih =>
      obtain ⟨k2, v2⟩ := p
      by_cases h : k2 = k
      · simp [dictInsert, dictGet, h]
      · simp [dictInsert, dictGet, h, ih]

theorem dictGet_dictInsert_ne {K V : Type} [DecidableEq K]
    (k k2 : K) (v : V) (d : List (K × V)) (h : k2 ≠ k) :
    dictGet k2 (dictInsert k v d) = dictGet k2 d := by
  induction d with
  | nil => simp [dictInsert, dictGet, Ne.symm h]
  | cons p rest ih =>
      obtain ⟨k3, v3⟩ := p
      by_cases h3 : k3 = k
      · subst h3
        simp [dictInsert, dictGet, Ne.symm h]
      · by_cases h2 : k3 = k2
        · subst h2
          simp [dictInsert, dictGet, h3]
        · simp [dictInsert, dictGet, h3, h2, ih]

theorem mem_dictInsert {K V : Type} [DecidableEq K]
    (k : K) (v : V) (d : List (K × V)) (p : K × V)
    (hp : p ∈ dictInsert k v d) : p = (k, v) ∨ p ∈ d := by
  induction d with
  | nil =>
      simp [dictInsert] at hp
      exact Or.inl hp
  | cons q rest ih =>
      obtain ⟨k2, v2⟩ := q
      by_cases h : k2 = k
      · simp only [dictInsert, h, if_pos rfl] at hp
        rcases List.mem_cons.mp hp with h1 | h1
        · exact Or.inl h1
        · exact Or.inr (List.mem_cons_of_mem _ h1)
      · simp only [dictInsert, if_neg h] at hp
        rcases List.mem_cons.mp hp with h1 | h1
        · exact Or.inr (h1 ▸ List.mem_cons_self _ _)
        · rcases ih h1 with h2 | h2
          · exact Or.inl h2
          · exact Or.inr (List.mem_cons_of_mem _ h2)

theorem dictPop_fst {K V : Type} [DecidableEq K]
    (k : K) (d : List (K × V)) : (dictPop k d).1 = dictGet k d := by
  induction d with
  | nil => simp [dictPop, dictGet]
  | cons p rest ih =>
      obtain ⟨k2, v2⟩ := p
      by_cases h : k2 = k <;> simp [dictPop, dictGet, h, ih]

theorem dictPop_snd_of_absent {K V : Type} [DecidableEq K]
    (k : K) (d : List (K × V)) (h : dictGet k d = none) :
    (dictPop k d).2 = d := by
  induction d with
  | nil => simp [dictPop]
  | cons p rest ih =>
      obtain ⟨k2, v2⟩ := p
      by_cases h2 : k2 = k
      · simp [dictGet, h2] at h
      · simp only [dictGet, if_neg h2] at h
        simp [dictPop, h2, ih h]

theorem mem_dictPop_snd {K V : Type} [DecidableEq K]
    (k : K) (d : List (K × V)) (p : K × V)
    (hp : p ∈ (dictPop k d).2) : p ∈ d := by
  induction d with
  | nil => simp [dictPop] at hp
  | cons q rest ih =>
      obtain ⟨k2, v2⟩ := q
      by_cases h : k2 = k
      · simp only [dictPop, h, if_pos rfl] at hp
        exact List.mem_cons_of_mem _ hp
      · simp only [dictPop, if_neg h] at hp
        rcases List.mem_cons.mp hp with h1 | h1
        · exact h1 ▸ List.mem_cons_self _ _
        · exact List.mem_cons_of_mem _ (ih h1)

theorem dictGet_dictPop_self {K V : Type} [DecidableEq K]
    (k : K) (d : List (K × V)) (hnd : dictNodupKeys d) :
    dictGet k (dictPop k d).2 = none := by
  induction d with
  | nil => simp [dictPop, dictGet]
  | cons p rest ih =>
      obtain ⟨k2, v2⟩ := p
      unfold dictNodupKeys at hnd
      simp only [List.map_cons, List.nodup_cons] at hnd
      by_cases h : k2 = k
      · subst h
        simp only [dictPop, if_pos rfl]
        cases hg : dictGet k2 rest with
        | none => exact hg
        | some v =>
            exfalso
            apply hnd.1
            clear ih hnd
            induction rest with
            | nil => simp [dictGet] at hg
            | cons q rest2 ih2 =>
                obtain ⟨k3, v3⟩ := q
                by_cases h3 : k3 = k2
                · simp [h3]
                · simp only [dictGet, if_neg h3] at hg
                  simp [ih2 hg]
      · simp only [dictPop, if_neg h]
        simp only [dictGet, if_neg h]
        exact ih hnd.2

/-! ### Address model and handlers (src/main.py lines 60-102)

The pydantic models for Address (src/models/address.py) are not present in the
source tree; their record shapes are modelled from the spec (sections 3, 4.2, 9).
The handler bodies below are translated from src/main.py. -/

/-- Modelled from the spec: the AddressRead record of src/models/address.py
(absent from the source tree) — a client-chosen UUID identity plus five
free-form string fields (spec section 3). -/
structure AddressRead where
  id : UUID
  street : String
  city : String
  state : String
  postal_code : String
  country : String
deriving DecidableEq, Repr

/-- Modelled from the spec: the AddressCreate payload of src/models/address.py
(absent from the source tree) — a full Address record including the
client-chosen id (spec section 4.2). -/
structure AddressCreate where
  id : UUID
  street : String
  city : String
  state : String
  postal_code : String
  country : String
deriving DecidableEq, Repr

/-- AddressRead(**address.model_dump()): every field of the create payload is
copied into the stored record. -/
def addressReadOfCreate (a : AddressCreate) : AddressRead :=
  { id := a.id, street := a.street, city := a.city, state := a.state,
    postal_code := a.postal_code, country := a.country }

/-- Modelled from the spec: the AddressUpdate payload of src/models/address.py
(absent from the source tree) — a sparse record in which every field carries a
present-or-absent marker (spec sections 4.2 and 9); model_dump with
exclude_unset drops exactly the absent fields. -/
structure AddressUpdate where
  street : Option String
  city : Option String
  state : Option String
  postal_code : Option String
  country : Option String
deriving DecidableEq, Repr

abbrev AddressTable := List (UUID × AddressRead)

/-- create_address (src/main.py 60-65): reject a duplicate id with HTTP 400
("Address with this ID already exists" — the Conflict error of the spec's
taxonomy, sections 6 and 7), otherwise store and return the record. -/
def create_address (addresses : AddressTable) (address : AddressCreate) :
    Except HTTPException AddressRead × AddressTable :=
  if dictContains address.id addresses then
    (Except.error ⟨400, "Address with this ID already exists"⟩, addresses)
  else
    let stored := addressReadOfCreate address
    (Except.ok stored, dictInsert address.id stored addresses)

/-- One filtering step of a list handler, the Python pattern
`if x is not None: results = [a for a in results if test(a, x)]`:
keep `results` unchanged when the filter is absent, keep the elements passing
the test at the filter's value when it is provided. -/
def applyFilter {α : Type} (o : Option String) (test : α → String → Bool)
    (l : List α) : List α :=
  match o with
  | some v => l.filter (fun a => test a v)
  | none => l

/-- list_addresses (src/main.py 67-86): start from all stored values and apply
each provided equality filter in turn. -/
def list_addresses (addresses : AddressTable)
    (street city state postal_code country : Option String) : List AddressRead :=
  let results := dictValues addresses
  let results := applyFilter street (fun a v => a.street == v) results
  let results := applyFilter city (fun a v => a.city == v) results
  let results := applyFilter state (fun a v => a.state == v) results
  let results := applyFilter postal_code (fun a v => a.postal_code == v) results
  let results := applyFilter country (fun a v => a.country == v) results
  results

/-- get_address (src/main.py 88-93): HTTP 404 when the id is absent. -/
def get_address (addresses : AddressTable) (address_id : UUID) :
    Except HTTPException AddressRead :=
  match dictGet address_id addresses with
  | none => Except.error ⟨404, "Address not found"⟩
  | some item => Except.ok item

/-- stored.update(update.model_dump(exclude_unset=True)): a field explicitly
present in the update payload overwrites the stored value, an absent field
keeps it; the id is not an update field and is kept. -/
def mergeAddress (stored : AddressRead) (update : AddressUpdate) : AddressRead :=
  { id := stored.id,
    street := update.street.getD stored.street,
    city := update.city.getD stored.city,
    state := update.state.getD stored.state,
    postal_code := update.postal_code.getD stored.postal_code,
    country := update.country.getD stored.country }

/-- update_address (src/main.py 95-102): HTTP 404 when the id is absent,
otherwise merge the present fields over the stored record, store and return
the merged record. -/
def update_address (addresses : AddressTable) (address_id : UUID)
    (update : AddressUpdate) :
    Except HTTPException AddressRead × AddressTable :=
  match dictGet address_id addresses with
  | none => (Except.error ⟨404, "Address not found"⟩, addresses)
  | some stored =>
      let merged := mergeAddress stored update
      (Except.ok merged, dictInsert address_id merged addresses)

/-! ### Person model and handlers (src/main.py lines 107-148)

The pydantic models for Person (src/models/person.py) are not present in the
source tree; their record shapes are modelled from the spec (sections 3, 4.3, 9). -/

/-- Modelled from the spec: the PersonRead record of src/models/person.py
(absent from the source tree) — a server-generated UUID identity, the scalar
fields, and an embedded list of Address value-copies (spec section 3); the
birth date is modelled by its ISO string form. -/
structure PersonRead where
  id : UUID
  uni : String
  first_name : String
  last_name : String
  email : String
  phone : String
  birth_date : String
  addresses : List AddressRead
deriving DecidableEq, Repr

/-- Modelled from the spec: the PersonCreate payload of src/models/person.py
(absent from the source tree) — the same fields without a server identity; a
client-supplied id, if any, is carried here but ignored by creation (spec
sections 4.3 and 9). -/
structure PersonCreate where
  id : Option UUID
  uni : String
  first_name : String
  last_name : String
  email : String
  phone : String
  birth_date : String
  addresses : List AddressRead
deriving DecidableEq, Repr

abbrev PersonTable := List (UUID × PersonRead)

/-- create_person (src/main.py 107-111): PersonRead(**person.model_dump())
assigns a freshly generated id (the uuid4 default_factory of PersonRead,
modelled from the spec since src/models/person.py is absent; the generated
value is passed explicitly as genId), stores the record under it and returns
it.  No conflict check and no error outcome. -/
def create_person (genId : UUID) (persons : PersonTable) (person : PersonCreate) :
    PersonRead × PersonTable :=
  let person_read : PersonRead :=
    { id := genId, uni := person.uni, first_name := person.first_name,
      last_name := person.last_name, email := person.email,
      phone := person.phone, birth_date := person.birth_date,
      addresses := person.addresses }
  (person_read, dictInsert person_read.id person_read persons)

/-- list_persons (src/main.py 113-141): equality filters on the scalar fields;
the city and country filters match when ANY embedded address has that city or
country. -/
def list_persons (persons : PersonTable)
    (uni first_name last_name email phone birth_date city country : Option String) :
    List PersonRead :=
  let results := dictValues persons
  let results := applyFilter uni (fun p v => p.uni == v) results
  let results := applyFilter first_name (fun p v => p.first_name == v) results
  let results := applyFilter last_name (fun p v => p.last_name == v) results
  let results := applyFilter email (fun p v => p.email == v) results
  let results := applyFilter phone (fun p v => p.phone == v) results
  let results := applyFilter birth_date (fun p v => p.birth_date == v) results
  let results := applyFilter city
    (fun p v => p.addresses.any (fun addr => addr.city == v)) results
  let results := applyFilter country
    (fun p v => p.addresses.any (fun addr => addr.country == v)) results
  results

/-- get_person (src/main.py 143-148): HTTP 404 when the id is absent. -/
def get_person (persons : PersonTable) (person_id : UUID) :
    Except HTTPException PersonRead :=
  match dictGet person_id persons with
  | none => Except.error ⟨404, "Person not found"⟩
  | some item => Except.ok item

/-! ### Age model and handlers (src/models/age.py, src/main.py lines 162-189) -/

/-- The Age model (src/models/age.py): person_name, birth_date (an ISO date,
modelled by its string form), optional current_age. -/
structure Age where
  person_name : String
  birth_date : String
  current_age : Option Int
deriving DecidableEq, Repr

abbrev AgeTable := List (String × Age)

/-- create_age (src/main.py 162-165): store unconditionally under the
payload's person_name and return the payload.  No conflict check and no error
outcome. -/
def create_age (ages : AgeTable) (payload : Age) : Age × AgeTable :=
  (payload, dictInsert payload.person_name payload ages)

/-- list_ages (src/main.py 167-169). -/
def list_ages (ages : AgeTable) : List Age := dictValues ages

/-- get_age (src/main.py 171-176): HTTP 404 when the key is absent. -/
def get_age (ages : AgeTable) (person_name : String) : Except HTTPException Age :=
  match dictGet person_name ages with
  | none => Except.error ⟨404, "Age record not found"⟩
  | some item => Except.ok item

/-- replace_age (src/main.py 178-184): HTTP 400 when the path key differs from
the payload's person_name, otherwise store unconditionally under the path key
and return the payload. -/
def replace_age (ages : AgeTable) (person_name : String) (age : Age) :
    Except HTTPException Age × AgeTable :=
  if person_name ≠ age.person_name then
    (Except.error ⟨400, "Person name in URL must match payload"⟩, ages)
  else
    (Except.ok age, dictInsert person_name age ages)

/-- delete_age (src/main.py 186-189): ages.pop(person_name, None); HTTP 404
when it returns None, no content otherwise. -/
def delete_age (ages : AgeTable) (person_name : String) :
    Except HTTPException Unit × AgeTable :=
  let r := dictPop person_name ages
  match r.1 with
  | none => (Except.error ⟨404, "Age record not found"⟩, ages)
  | some _ => (Except.ok (), r.2)

/-! ### Job model and handlers (src/models/job.py, src/main.py lines 194-220) -/

/-- The Job model (src/models/job.py): a UUID id (uuid4-generated by pydantic
when the client supplies none — either way the payload reaching the handler
carries a concrete id), title, company, start and optional end dates
(modelled by their string forms), and the is_current flag. -/
structure Job where
  id : UUID
  title : String
  company : String
  start_date : String
  end_date : Option String
  is_current : Bool
deriving DecidableEq, Repr

abbrev JobTable := List (String × Job)

/-- create_job (src/main.py 194-197): store unconditionally under
str(payload.id) and return the payload.  No conflict check and no error
outcome. -/
def create_job (jobs : JobTable) (payload : Job) : Job × JobTable :=
  (payload, dictInsert (strOfUUID payload.id) payload jobs)

/-- list_jobs (src/main.py 199-201). -/
def list_jobs (jobs : JobTable) : List Job := dictValues jobs

/-- get_job (src/main.py 203-208): HTTP 404 when the key is absent. -/
def get_job (jobs : JobTable) (job_id : String) : Except HTTPException Job :=
  match dictGet job_id jobs with
  | none => Except.error ⟨404, "Job not found"⟩
  | some item => Except.ok item

/-- replace_job (src/main.py 210-215): HTTP 400 when str(payload.id) differs
from the path key, otherwise store unconditionally under the path key and
return the payload. -/
def replace_job (jobs : JobTable) (job_id : String) (job : Job) :
    Except HTTPException Job × JobTable :=
  if strOfUUID job.id ≠ job_id then
    (Except.error ⟨400, "Job ID in URL must match payload"⟩, jobs)
  else
    (Except.ok job, dictInsert job_id job jobs)

/-- delete_job (src/main.py 217-220): jobs.pop(job_id, None); HTTP 404 when it
returns None, no content otherwise. -/
def delete_job (jobs : JobTable) (job_id : String) :
    Except HTTPException Unit × JobTable :=
  let r := dictPop job_id jobs
  match r.1 with
  | none => (Except.error ⟨404, "Job not found"⟩, jobs)
  | some _ => (Except.ok (), r.2)

/-! ### State machine over the mutating Age/Job operations (for the
key-consistency invariant) -/

/-- The two client-keyed tables of the service, as mutated by the Age and Job
create/replace/delete handlers. -/
structure AppState where
  ages : AgeTable
  jobs : JobTable
deriving Repr

/-- The empty stores the process starts from (src/main.py 22-25). -/
def initState : AppState := { ages := [], jobs := [] }

/-- A mutating request against the Age or Job table. -/
inductive MutOp where
  | ageCreate (payload : Age)
  | ageReplace (person_name : String) (age : Age)
  | ageDelete (person_name : String)
  | jobCreate (payload : Job)
  | jobReplace (job_id : String) (job : Job)
  | jobDelete (job_id : String)

/-- Run one mutating handler, keeping the table it leaves behind (an error
response leaves the table unchanged). -/
def execOp (st : AppState) : MutOp → AppState
  | MutOp.ageCreate payload => { st with ages := (create_age st.ages payload).2 }
  | MutOp.ageReplace n a => { st with ages := (replace_age st.ages n a).2 }
  | MutOp.ageDelete n => { st with ages := (delete_age st.ages n).2 }
  | MutOp.jobCreate payload => { st with jobs := (create_job st.jobs payload).2 }
  | MutOp.jobReplace i j => { st with jobs := (replace_job st.jobs i j).2 }
  | MutOp.jobDelete i => { st with jobs := (delete_job st.jobs i).2 }

/-- Run a sequence of mutating requests from the empty stores. -/
def execOps (ops : List MutOp) : AppState := ops.foldl execOp initState

/-- Every entry of the ages table is keyed by its record's person_name. -/
def agesKeyConsistent (t : AgeTable) : Prop :=
  ∀ p ∈ t, p.1 = p.2.person_name

/-- Every entry of the jobs table is keyed by the string form of its record's
id. -/
def jobsKeyConsistent (t : JobTable) : Prop :=
  ∀ p ∈ t, p.1 = strOfUUID p.2.id

/-- Both key-consistency conditions at once. -/
def invariantKeys (st : AppState) : Prop :=
  agesKeyConsistent st.ages ∧ jobsKeyConsistent st.jobs

theorem invariantKeys_execOp (st : AppState) (op : MutOp)
    (h : invariantKeys st) : invariantKeys (execOp st op) := by
  obtain ⟨hA, hJ⟩ := h
  cases op with
  | ageCreate payload =>
      refine ⟨?_, hJ⟩
      intro p hp
      simp only [execOp, create_age] at hp
      rcases mem_dictInsert _ _ _ _ hp with h1 | h1
      · rw [h1]
      · exact hA p h1
  | ageReplace n a =>
      refine ⟨?_, hJ⟩
      intro p hp
      simp only [execOp, replace_age] at hp
      by_cases hcond : n ≠ a.person_name
      · rw [if_pos hcond] at hp
        exact hA p hp
      · rw [if_neg hcond] at hp
        rcases mem_dictInsert _ _ _ _ hp with h1 | h1
        · rw [h1]
          exact not_ne_iff.mp hcond
        · exact hA p h1
  | ageDelete n =>
      refine ⟨?_, hJ⟩
      intro p hp
      simp only [execOp, delete_age] at hp
      cases hg : dictGet n st.ages with
      | none =>
          rw [dictPop_fst, hg] at hp
          exact hA p hp
      | some v =>
          rw [dictPop_fst, hg] at hp
          exact hA p (mem_dictPop_snd _ _ _ hp)
  | jobCreate payload =>
      refine ⟨hA, ?_⟩
      intro p hp
      simp only [execOp, create_job] at hp
      rcases mem_dictInsert _ _ _ _ hp with h1 | h1
      · rw [h1]
      · exact hJ p h1
  | jobReplace i j =>
      refine ⟨hA, ?_⟩
      intro p hp
      simp only [execOp, replace_job] at hp
      by_cases hcond : strOfUUID j.id ≠ i
      · rw [if_pos hcond] at hp
        exact hJ p hp
      · rw [if_neg hcond] at hp
        rcases mem_dictInsert _ _ _ _ hp with h1 | h1
        · rw [h1]
          exact (not_ne_iff.mp hcond).symm
        · exact hJ p h1
  | jobDelete i =>
      refine ⟨hA, ?_⟩
      intro p hp
      simp only [execOp, delete_job] at hp
      cases hg : dictGet i st.jobs with
      | none =>
          rw [dictPop_fst, hg] at hp
          exact hJ p hp
      | some v =>
          rw [dictPop_fst, hg] at hp
          exact hJ p (mem_dictPop_snd _ _ _ hp)

/-! ### Claim theorems -/

/-- Whether an optional filter accepts: an absent filter accepts everything, a
provided one accepts exactly when the test holds at its value. -/
def matchOptBy (o : Option String) (test : String → Bool) : Bool :=
  match o with
  | none => true
  | some v => test v

theorem applyFilter_eq_filter {α : Type} (o : Option String)
    (test : α → String → Bool) (l : List α) :
    applyFilter o test l = l.filter (fun a => matchOptBy o (test a)) := by
  cases o with
  | none => simp [applyFilter, matchOptBy, List.filter_true]
  | some v => simp [applyFilter, matchOptBy]

/-- C1: creating an Address whose id is already a key of the table fails with
the duplicate-identity (Conflict) error — HTTP 400, "Address with this ID
already exists" (spec sections 6 and 7) — and returns the table unchanged, so
the record stored under that id keeps all its field values; creating with an
id not present stores the payload's record under that id and returns it with
every field, id included. -/
theorem create_address_conflict_checked
    (addresses : AddressTable) (address : AddressCreate) :
    (dictContains address.id addresses = true →
      create_address addresses address =
        (Except.error ⟨400, "Address with this ID already exists"⟩, addresses)) ∧
    (dictContains address.id addresses = false →
      create_address addresses address =
        (Except.ok (addressReadOfCreate address),
          dictInsert address.id (addressReadOfCreate address) addresses) ∧
      dictGet address.id (create_address addresses address).2 =
        some (addressReadOfCreate address) ∧
      (addressReadOfCreate address).id = address.id ∧
      (addressReadOfCreate address).street = address.street ∧
      (addressReadOfCreate address).city = address.city ∧
      (addressReadOfCreate address).state = address.state ∧
      (addressReadOfCreate address).postal_code = address.postal_code ∧
      (addressReadOfCreate address).country = address.country) := by
  constructor
  · intro h
    simp [create_address, h]
  · intro h
    refine ⟨by simp [create_address, h], ?_, rfl, rfl, rfl, rfl, rfl, rfl⟩
    simp [create_address, h, dictGet_dictInsert_self]

theorem create_address_conflict_checked_witness :
    create_address [(1, ⟨1, "a", "b", "c", "d", "e"⟩)] ⟨1, "x", "y", "z", "w", "v"⟩ =
      (Except.error ⟨400, "Address with this ID already exists"⟩,
        [(1, ⟨1, "a", "b", "c", "d", "e"⟩)]) ∧
    create_address ([] : AddressTable) ⟨2, "x", "y", "z", "w", "v"⟩ =
      (Except.ok ⟨2, "x", "y", "z", "w", "v"⟩,
        [(2, ⟨2, "x", "y", "z", "w", "v"⟩)]) :=
  ⟨(create_address_conflict_checked
      [(1, ⟨1, "a", "b", "c", "d", "e"⟩)] ⟨1, "x", "y", "z", "w", "v"⟩).1 (by decide),
   ((create_address_conflict_checked
      ([] : AddressTable) ⟨2, "x", "y", "z", "w", "v"⟩).2 (by decide)).1⟩

/-- C2: replacing an Age (resp. Job) whose path key differs from the payload's
person_name (resp. the string form of the payload's id) fails with BadRequest
(HTTP 400) and leaves the table unchanged, whatever the table holds; when the
keys agree the payload is stored under the key unconditionally — created when
absent, overwritten when present, all other keys untouched — and returned. -/
theorem replace_requires_matching_key
    (ages : AgeTable) (jobs : JobTable) (person_name : String) (age : Age)
    (job_id : String) (job : Job) :
    (person_name ≠ age.person_name →
      replace_age ages person_name age =
        (Except.error ⟨400, "Person name in URL must match payload"⟩, ages)) ∧
    (person_name = age.person_name →
      replace_age ages person_name age =
        (Except.ok age, dictInsert person_name age ages) ∧
      dictGet person_name (replace_age ages person_name age).2 = some age ∧
      (∀ k, k ≠ person_name →
        dictGet k (replace_age ages person_name age).2 = dictGet k ages)) ∧
    (strOfUUID job.id ≠ job_id →
      replace_job jobs job_id job =
        (Except.error ⟨400, "Job ID in URL must match payload"⟩, jobs)) ∧
    (strOfUUID job.id = job_id →
      replace_job jobs job_id job =
        (Except.ok job, dictInsert job_id job jobs) ∧
      dictGet job_id (replace_job jobs job_id job).2 = some job ∧
      (∀ k, k ≠ job_id →
        dictGet k (replace_job jobs job_id job).2 = dictGet k jobs)) := by
  refine ⟨?_, ?_, ?_, ?_⟩
  · intro h
    simp [replace_age, h]
  · intro h
    subst h
    refine ⟨by simp [replace_age], by simp [replace_age, dictGet_dictInsert_self], ?_⟩
    intro k hk
    simp [replace_age, dictGet_dictInsert_ne _ _ _ _ hk]
  · intro h
    simp [replace_job, h]
  · intro h
    subst h
    refine ⟨by simp [replace_job], by simp [replace_job, dictGet_dictInsert_self], ?_⟩
    intro k hk
    simp [replace_job, dictGet_dictInsert_ne _ _ _ _ hk]

theorem replace_requires_matching_key_witness :
    replace_age ([] : AgeTable) "x" ⟨"y", "1815-12-10", none⟩ =
      (Except.error ⟨400, "Person name in URL must match payload"⟩, []) ∧
    dictGet "1" (replace_job ([] : JobTable) "1" ⟨1, "t", "c", "2023-06-01", none, true⟩).2 =
      some ⟨1, "t", "c", "2023-06-01", none, true⟩ :=
  ⟨(replace_requires_matching_key [] [] "x" ⟨"y", "1815-12-10", none⟩ "1"
      ⟨1, "t", "c", "2023-06-01", none, true⟩).1 (by decide),
   ((replace_requires_matching_key [] [] "x" ⟨"y", "1815-12-10", none⟩ "1"
      ⟨1, "t", "c", "2023-06-01", none, true⟩).2.2.2 rfl).2.1⟩

/-- C3: partially updating an Address fails with NotFound (HTTP 404) and
leaves the table unchanged when the id is absent; when the id is present, the
resulting record keeps the stored id and has, field by field, the payload's
value where the field is explicitly present in the payload and the previously
stored value where it is omitted, and this merged record is both stored under
the id and returned. -/
theorem update_address_merge_semantics
    (addresses : AddressTable) (address_id : UUID) (update : AddressUpdate) :
    (dictGet address_id addresses = none →
      update_address addresses address_id update =
        (Except.error ⟨404, "Address not found"⟩, addresses)) ∧
    (∀ stored, dictGet address_id addresses = some stored →
      update_address addresses address_id update =
        (Except.ok (mergeAddress stored update),
          dictInsert address_id (mergeAddress stored update) addresses) ∧
      dictGet address_id (update_address addresses address_id update).2 =
        some (mergeAddress stored update) ∧
      (mergeAddress stored update).id = stored.id ∧
      (mergeAddress stored update).street =
        (match update.street with | some v => v | none => stored.street) ∧
      (mergeAddress stored update).city =
        (match update.city with | some v => v | none => stored.city) ∧
      (mergeAddress stored update).state =
        (match update.state with | some v => v | none => stored.state) ∧
      (mergeAddress stored update).postal_code =
        (match update.postal_code with | some v => v | none => stored.postal_code) ∧
      (mergeAddress stored update).country =
        (match update.country with | some v => v | none => stored.country)) := by
  constructor
  · intro h
    simp [update_address, h]
  · intro stored h
    refine ⟨by simp [update_address, h],
      by simp [update_address, h, dictGet_dictInsert_self], rfl, ?_, ?_, ?_, ?_, ?_⟩
    · simp only [mergeAddress]
      cases update.street <;> simp
    · simp only [mergeAddress]
      cases update.city <;> simp
    · simp only [mergeAddress]
      cases update.state <;> simp
    · simp only [mergeAddress]
      cases update.postal_code <;> simp
    · simp only [mergeAddress]
      cases update.country <;> simp

theorem update_address_merge_semantics_witness :
    update_address [(1, ⟨1, "A", "B", "s", "p", "c"⟩)] 1
        ⟨none, some "C", none, none, none⟩ =
      (Except.ok ⟨1, "A", "C", "s", "p", "c"⟩,
        [(1, ⟨1, "A", "C", "s", "p", "c"⟩)]) ∧
    update_address ([] : AddressTable) 1 ⟨none, some "C", none, none, none⟩ =
      (Except.error ⟨404, "Address not found"⟩, []) := by
  constructor
  · have h := ((update_address_merge_semantics [(1, ⟨1, "A", "B", "s", "p", "c"⟩)] 1
        ⟨none, some "C", none, none, none⟩).2 ⟨1, "A", "B", "s", "p", "c"⟩ (by decide)).1
    simpa [mergeAddress] using h
  · exact (update_address_merge_semantics ([] : AddressTable) 1
        ⟨none, some "C", none, none, none⟩).1 rfl

/-- C4: creating a Person always succeeds — in the embedding create_person
returns a record and the new table, with no error outcome, so it can never
fail with Conflict — and the stored and returned record carries the freshly
server-generated id genId (the uuid4 default_factory, assumed distinct from
any client-supplied id on the payload), never the client-supplied id, which
does not influence the result at all. -/
theorem create_person_generates_fresh_id (genId : UUID) (persons : PersonTable)
    (person : PersonCreate)
    (hfresh : ∀ cid, person.id = some cid → genId ≠ cid) :
    (create_person genId persons person).1.id = genId ∧
    (∀ cid, person.id = some cid →
      (create_person genId persons person).1.id ≠ cid) ∧
    (∀ x, create_person genId persons
        { person with id := x } = create_person genId persons person) ∧
    dictGet genId (create_person genId persons person).2 =
      some (create_person genId persons person).1 := by
  refine ⟨rfl, ?_, fun x => rfl, ?_⟩
  · intro cid hc
    exact hfresh cid hc
  · simp [create_person, dictGet_dictInsert_self]

theorem create_person_generates_fresh_id_witness :
    (create_person 5 ([] : PersonTable)
        ⟨some 3, "u", "f", "l", "e", "p", "1990-01-01", []⟩).1.id = 5 ∧
    (create_person 5 ([] : PersonTable)
        ⟨some 3, "u", "f", "l", "e", "p", "1990-01-01", []⟩).1.id ≠ 3 := by
  have h := create_person_generates_fresh_id 5 ([] : PersonTable)
      ⟨some 3, "u", "f", "l", "e", "p", "1990-01-01", []⟩
      (by intro cid hc; injection hc with h2; subst h2; decide)
  exact ⟨h.1, h.2.1 3 rfl⟩

/-- C5: creating an Age (resp. Job) stores the payload under its key — the
payload's person_name (resp. the string form of its id) — unconditionally: a
record already under that key is silently overwritten, every other key is
untouched, the payload is returned, and there is no error outcome (in the
embedding both handlers return a record and the new table, so creation never
fails with Conflict). -/
theorem create_age_job_upsert (ages : AgeTable) (jobs : JobTable)
    (payload : Age) (jpayload : Job) :
    (create_age ages payload).1 = payload ∧
    dictGet payload.person_name (create_age ages payload).2 = some payload ∧
    (∀ k, k ≠ payload.person_name →
      dictGet k (create_age ages payload).2 = dictGet k ages) ∧
    (create_job jobs jpayload).1 = jpayload ∧
    dictGet (strOfUUID jpayload.id) (create_job jobs jpayload).2 = some jpayload ∧
    (∀ k, k ≠ strOfUUID jpayload.id →
      dictGet k (create_job jobs jpayload).2 = dictGet k jobs) := by
  refine ⟨rfl, ?_, ?_, rfl, ?_, ?_⟩
  · simp [create_age, dictGet_dictInsert_self]
  · intro k hk
    simp [create_age, dictGet_dictInsert_ne _ _ _ _ hk]
  · simp [create_job, dictGet_dictInsert_self]
  · intro k hk
    simp [create_job, dictGet_dictInsert_ne _ _ _ _ hk]

theorem create_age_job_upsert_witness :
    dictGet "Ada" (create_age [("Ada", ⟨"Ada", "1815-12-10", none⟩)]
        ⟨"Ada", "1815-12-11", some 36⟩).2 = some ⟨"Ada", "1815-12-11", some 36⟩ ∧
    dictGet "Bob" (create_age [("Ada", ⟨"Ada", "1815-12-10", none⟩), ("Bob", ⟨"Bob", "1900-01-01", none⟩)]
        ⟨"Ada", "1815-12-11", some 36⟩).2 = some ⟨"Bob", "1900-01-01", none⟩ := by
  have h := create_age_job_upsert
      [("Ada", ⟨"Ada", "1815-12-10", none⟩), ("Bob", ⟨"Bob", "1900-01-01", none⟩)]
      ([] : JobTable) ⟨"Ada", "1815-12-11", some 36⟩ ⟨1, "t", "c", "2023-06-01", none, true⟩
  have h1 := (create_age_job_upsert [("Ada", ⟨"Ada", "1815-12-10", none⟩)]
      ([] : JobTable) ⟨"Ada", "1815-12-11", some 36⟩
      ⟨1, "t", "c", "2023-06-01", none, true⟩).2.1
  refine ⟨h1, ?_⟩
  have h2 := h.2.2.1 "Bob" (by decide)
  rw [h2]
  decide

/-- C6: deleting an Age (resp. Job) whose key is absent fails with NotFound
(HTTP 404) and leaves the table unchanged; deleting a present key succeeds
with no content (ok ()) and removes the record, so that a subsequent Get at
the same key fails with NotFound.  The table hypotheses state that keys are
pairwise distinct, as in every Python dict. -/
theorem delete_age_job_notfound_or_removes
    (ages : AgeTable) (jobs : JobTable) (person_name job_id : String)
    (hA : dictNodupKeys ages) (hJ : dictNodupKeys jobs) :
    (dictGet person_name ages = none →
      delete_age ages person_name =
        (Except.error ⟨404, "Age record not found"⟩, ages)) ∧
    (dictContains person_name ages = true →
      (delete_age ages person_name).1 = Except.ok () ∧
      get_age (delete_age ages person_name).2 person_name =
        Except.error ⟨404, "Age record not found"⟩) ∧
    (dictGet job_id jobs = none →
      delete_job jobs job_id =
        (Except.error ⟨404, "Job not found"⟩, jobs)) ∧
    (dictContains job_id jobs = true →
      (delete_job jobs job_id).1 = Except.ok () ∧
      get_job (delete_job jobs job_id).2 job_id =
        Except.error ⟨404, "Job not found"⟩) := by
  refine ⟨?_, ?_, ?_, ?_⟩
  · intro h
    simp [delete_age, dictPop_fst, h]
  · intro h
    unfold dictContains at h
    cases hg : dictGet person_name ages with
    | none => rw [hg] at h; simp at h
    | some v =>
        constructor
        · simp [delete_age, dictPop_fst, hg]
        · have h2 := dictGet_dictPop_self person_name ages hA
          simp [delete_age, dictPop_fst, hg, get_age, h2]
  · intro h
    simp [delete_job, dictPop_fst, h]
  · intro h
    unfold dictContains at h
    cases hg : dictGet job_id jobs with
    | none => rw [hg] at h; simp at h
    | some v =>
        constructor
        · simp [delete_job, dictPop_fst, hg]
        · have h2 := dictGet_dictPop_self job_id jobs hJ
          simp [delete_job, dictPop_fst, hg, get_job, h2]

theorem delete_age_job_notfound_or_removes_witness :
    delete_age ([] : AgeTable) "Ada" =
      (Except.error ⟨404, "Age record not found"⟩, []) ∧
    get_age (delete_age [("Ada", ⟨"Ada", "1815-12-10", none⟩)] "Ada").2 "Ada" =
      Except.error ⟨404, "Age record not found"⟩ ∧
    get_job (delete_job [("1", ⟨1, "t", "c", "2023-06-01", none, true⟩)] "1").2 "1" =
      Except.error ⟨404, "Job not found"⟩ :=
  ⟨(delete_age_job_notfound_or_removes [] [] "Ada" "1"
      (by decide) (by decide)).1 rfl,
   ((delete_age_job_notfound_or_removes [("Ada", ⟨"Ada", "1815-12-10", none⟩)]
      [] "Ada" "1" (by decide) (by decide)).2.1 (by decide)).2,
   ((delete_age_job_notfound_or_removes []
      [("1", ⟨1, "t", "c", "2023-06-01", none, true⟩)] "Ada" "1"
      (by decide) (by decide)).2.2.2 (by decide)).2⟩

/-- C9: a successful POST followed immediately by a GET at the key the POST
returned succeeds and yields exactly the record the POST returned — for all
four entity types (Address by the echoed id, Person by the generated id, Age
by person_name, Job by the string form of the id). -/
theorem create_then_get_round_trip
    (addresses : AddressTable) (persons : PersonTable)
    (ages : AgeTable) (jobs : JobTable)
    (address : AddressCreate) (genId : UUID) (person : PersonCreate)
    (agePayload : Age) (jobPayload : Job) :
    (∀ r st2, create_address addresses address = (Except.ok r, st2) →
      get_address st2 r.id = Except.ok r) ∧
    (get_person (create_person genId persons person).2
        (create_person genId persons person).1.id =
      Except.ok (create_person genId persons person).1) ∧
    (get_age (create_age ages agePayload).2 agePayload.person_name =
      Except.ok agePayload) ∧
    (get_job (create_job jobs jobPayload).2 (strOfUUID jobPayload.id) =
      Except.ok jobPayload) := by
  refine ⟨?_, ?_, ?_, ?_⟩
  · intro r st2 h
    by_cases hc : dictContains address.id addresses
    · simp [create_address, hc] at h
    · simp only [create_address, hc, Bool.false_eq_true, if_false,
        Prod.mk.injEq, Except.ok.injEq] at h
      obtain ⟨hr, hst⟩ := h
      subst hr
      subst hst
      simp [get_address, addressReadOfCreate, dictGet_dictInsert_self]
  · simp [get_person, create_person, dictGet_dictInsert_self]
  · simp [get_age, create_age, dictGet_dictInsert_self]
  · simp [get_job, create_job, dictGet_dictInsert_self]

theorem create_then_get_round_trip_witness :
    get_address (create_address ([] : AddressTable) ⟨7, "s", "c", "t", "p", "o"⟩).2 7 =
      Except.ok ⟨7, "s", "c", "t", "p", "o"⟩ ∧
    get_age (create_age ([] : AgeTable) ⟨"Ada", "1815-12-10", some 36⟩).2 "Ada" =
      Except.ok ⟨"Ada", "1815-12-10", some 36⟩ := by
  have h := create_then_get_round_trip ([] : AddressTable) ([] : PersonTable)
      ([] : AgeTable) ([] : JobTable) ⟨7, "s", "c", "t", "p", "o"⟩ 0
      ⟨none, "u", "f", "l", "e", "p", "1990-01-01", []⟩
      ⟨"Ada", "1815-12-10", some 36⟩ ⟨1, "t", "c", "2023-06-01", none, true⟩
  exact ⟨h.1 ⟨7, "s", "c", "t", "p", "o"⟩ _ rfl, h.2.2.1⟩

/-- C7: for every table state and every combination of optional filters, the
Address list operation returns exactly the stored records whose fields pass
ALL the provided equality filters (a conjunction across provided filters, an
absent filter accepting everything), and with no filter provided it returns
all stored records. -/
theorem list_addresses_conjunctive (addresses : AddressTable)
    (street city state postal_code country : Option String) :
    list_addresses addresses street city state postal_code country =
      (dictValues addresses).filter (fun a =>
        matchOptBy street (fun v => a.street == v) &&
        matchOptBy city (fun v => a.city == v) &&
        matchOptBy state (fun v => a.state == v) &&
        matchOptBy postal_code (fun v => a.postal_code == v) &&
        matchOptBy country (fun v => a.country == v)) ∧
    list_addresses addresses none none none none none = dictValues addresses := by
  constructor
  · simp only [list_addresses, applyFilter_eq_filter, List.filter_filter]
    apply List.filter_congr
    intro a _
    generalize matchOptBy street (fun v => a.street == v) = b1
    generalize matchOptBy city (fun v => a.city == v) = b2
    generalize matchOptBy state (fun v => a.state == v) = b3
    generalize matchOptBy postal_code (fun v => a.postal_code == v) = b4
    generalize matchOptBy country (fun v => a.country == v) = b5
    revert b1 b2 b3 b4 b5
    decide
  · rfl

/-- C8: the Person list operation with a city (resp. country) filter returns
exactly the stored persons some embedded address of which has that city
(resp. country) — a disjunction across the embedded list, stated by the
any-clauses and made explicit by the two existential characterisations — and
a person is returned only if it passes every provided filter (a conjunction
across distinct filter fields). -/
theorem list_persons_embedded_any_match (persons : PersonTable)
    (uni first_name last_name email phone birth_date city country : Option String) :
    (list_persons persons uni first_name last_name email phone birth_date city country =
      (dictValues persons).filter (fun p =>
        matchOptBy uni (fun v => p.uni == v) &&
        matchOptBy first_name (fun v => p.first_name == v) &&
        matchOptBy last_name (fun v => p.last_name == v) &&
        matchOptBy email (fun v => p.email == v) &&
        matchOptBy phone (fun v => p.phone == v) &&
        matchOptBy birth_date (fun v => p.birth_date == v) &&
        matchOptBy city (fun v => p.addresses.any (fun addr => addr.city == v)) &&
        matchOptBy country (fun v => p.addresses.any (fun addr => addr.country == v)))) ∧
    (∀ (p : PersonRead) (v : String),
      matchOptBy (some v) (fun w => p.addresses.any (fun addr => addr.city == w)) = true ↔
      ∃ addr ∈ p.addresses, addr.city = v) ∧
    (∀ (p : PersonRead) (v : String),
      matchOptBy (some v) (fun w => p.addresses.any (fun addr => addr.country == w)) = true ↔
      ∃ addr ∈ p.addresses, addr.country = v) := by
  refine ⟨?_, ?_, ?_⟩
  · simp only [list_persons, applyFilter_eq_filter, List.filter_filter]
    apply List.filter_congr
    intro p _
    generalize matchOptBy uni (fun v => p.uni == v) = b1
    generalize matchOptBy first_name (fun v => p.first_name == v) = b2
    generalize matchOptBy last_name (fun v => p.last_name == v) = b3
    generalize matchOptBy email (fun v => p.email == v) = b4
    generalize matchOptBy phone (fun v => p.phone == v) = b5
    generalize matchOptBy birth_date (fun v => p.birth_date == v) = b6
    generalize matchOptBy city (fun v => p.addresses.any (fun addr => addr.city == v)) = b7
    generalize matchOptBy country (fun v =>
      p.addresses.any (fun addr => addr.country == v)) = b8
    revert b1 b2 b3 b4 b5 b6 b7 b8
    decide
  · intro p v
    simp [matchOptBy, List.any_eq_true]
  · intro p v
    simp [matchOptBy, List.any_eq_true]

/-- C10: in every state reachable by any sequence of Age/Job create, replace
and delete operations from the empty stores, every ages-table entry is keyed
by its record's person_name, and every jobs-table entry is keyed by the
string form of its record's id. -/
theorem reachable_key_consistency (ops : List MutOp) :
    agesKeyConsistent (execOps ops).ages ∧ jobsKeyConsistent (execOps ops).jobs := by
  have main : ∀ (l : List MutOp) (st : AppState), invariantKeys st →
      invariantKeys (l.foldl execOp st) := by
    intro l
    induction l with
    | nil => intro st h; exact h
    | cons op rest ih =>
        intro st h
        exact ih _ (invariantKeys_execOp st op h)
  have h0 : invariantKeys initState := by
    constructor
    · intro p hp
      simp [initState] at hp
    · intro p hp
      simp [initState] at hp
  exact main ops initState h0
